import Mathlib

/-!
Verification development for the borg-backup add-on
(`backup.py`, `restore.py`, `common.py`, `run.py`).

The Python sources are shallowly embedded below: pure helpers become Lean
functions, and the orchestration workflows (`create_backup`,
`restore_backup`) become functions from an environment of external-world
outcomes (probe responses, subprocess successes, API results) to the
ordered list of observable actions they perform plus a success flag.
-/

namespace BorgSpec

/-! ### String helpers (Python `str.lower`, substring test, truthiness) -/

/-- Python `s.lower()` (ASCII case folding, which is all the sources rely on). -/
def lowerStr (s : String) : String :=
  String.mk (s.toList.map Char.toLower)

/-- Python `needle in hay` on strings: substring containment. -/
def containsSub (hay needle : String) : Bool :=
  (hay.toList.tails).any (fun t => needle.toList.isPrefixOf t)

/-- Python truthiness of an optional string (`None` and `""` are falsy). -/
def truthy : Option String → Bool
  | none => false
  | some s => !(s == "")

/-! ### Python `int(...)` parsing (used for `BACKUP_INDEX`) -/

/-- Digit run with Python underscore grouping: digits, where an underscore
must sit between two digits. Returns the accumulated value. -/
def digitsCore : Nat → List Char → Option Nat
  | acc, [] => some acc
  | acc, '_' :: c :: rest =>
      if c.isDigit then digitsCore (acc * 10 + (c.toNat - 48)) rest else none
  | _, ['_'] => none
  | acc, c :: rest =>
      if c.isDigit then digitsCore (acc * 10 + (c.toNat - 48)) rest else none

/-- A nonempty digit sequence (with legal underscore separators) to a `Nat`. -/
def digitsVal : List Char → Option Nat
  | [] => none
  | c :: rest => if c.isDigit then digitsCore (c.toNat - 48) rest else none

/-- Python `int(s)` over decimal strings: strips surrounding whitespace,
accepts an optional sign, then digits; anything else raises `ValueError`,
modelled as `none`. -/
def pythonInt (s : String) : Option Int :=
  let cs := (s.toList.dropWhile Char.isWhitespace).reverse.dropWhile Char.isWhitespace |>.reverse
  match cs with
  | '-' :: rest => (digitsVal rest).map (fun n => -(n : Int))
  | '+' :: rest => (digitsVal rest).map (fun n => (n : Int))
  | rest => (digitsVal rest).map (fun n => (n : Int))

/-! ### Retention pruning (`_cleanup_old_backups` / `_cleanup_via_api`)

`backup.py` lines 429-454 and `run.py` lines 472-494: the fetched backup
list is sorted ascending by its `date` field and everything except the
`keep_snapshots` newest entries is deleted via the API.
-/

/-- A platform backup record as returned by `GET /backups`
(`{slug, name, date}`). -/
structure BackupRec where
  slug : String
  name : String
  date : String
deriving DecidableEq, Repr

/-- Ordering used by `backups.sort(key=lambda x: x["date"])`. -/
def dateLe (x y : BackupRec) : Prop := x.date ≤ y.date

instance : DecidableRel dateLe := fun x y =>
  inferInstanceAs (Decidable (x.date ≤ y.date))

instance : IsTotal BackupRec dateLe := ⟨fun x y => le_total x.date y.date⟩

instance : IsTrans BackupRec dateLe := ⟨fun _ _ _ h h2 => le_trans h h2⟩

/-- `backups.sort(key=lambda x: x["date"])`: stable ascending sort by date. -/
def sortByDate (l : List BackupRec) : List BackupRec :=
  List.insertionSort dateLe l

/-- `backups[: -keep] if len(backups) > keep else []` applied to the sorted
list: the entries the pruning step deletes. -/
def pruneToRemove (keep : Nat) (l : List BackupRec) : List BackupRec :=
  let s := sortByDate l
  if keep < l.length then s.take (l.length - keep) else []

/-- The entries the pruning step keeps (complement of `pruneToRemove`
inside the sorted listing). -/
def pruneKept (keep : Nat) (l : List BackupRec) : List BackupRec :=
  let s := sortByDate l
  if keep < l.length then s.drop (l.length - keep) else s

/-! ### Restore-selection (`restore.py`, `_select_backup_to_restore`)

`list_available_backups` formats each borg archive into a dict with
`name`, `time`, `size` and `raw_time`, then sorts newest-first by
`raw_time`. `_select_backup_to_restore` resolves `BACKUP_NAME`, then
`BACKUP_INDEX` (1-based), then defaults to the first (newest) entry.
-/

/-- A formatted archive entry built by `list_available_backups`. -/
structure FormattedBackup where
  name : String
  time : String
  size : String
  raw_time : String
deriving DecidableEq, Repr

/-- `formatted_backups.sort(key=lambda x: x["raw_time"], reverse=True)`:
stable descending sort by the raw borg timestamp. -/
def sortNewestFirst (l : List FormattedBackup) : List FormattedBackup :=
  List.insertionSort (fun x y => y.raw_time ≤ x.raw_time) l

/-- Result of `_select_backup_to_restore`. The Python function returns
`Optional[str]`; each `None` return site has a distinct log line, which
the constructors record. -/
inductive SelectResult where
  | selected (nm : String)
  | notFound
  | rangeError
  | invalidIndex
  | noBackups
deriving DecidableEq, Repr

/-- `restore.py` lines 262-306 (`_select_backup_to_restore`): resolve an
explicit `BACKUP_NAME`, else an explicit 1-based `BACKUP_INDEX`, else the
first entry of the listing. -/
def selectBackupToRestore (backupName backupIndex : Option String)
    (backups : List FormattedBackup) : SelectResult :=
  if truthy backupName then
    let nm := backupName.getD ""
    if backups.any (fun b => b.name == nm) then .selected nm else .notFound
  else if truthy backupIndex then
    match pythonInt (backupIndex.getD "") with
    | some i =>
        let idx : Int := i - 1
        if h : 0 ≤ idx ∧ idx.toNat < backups.length then
          .selected (backups.get ⟨idx.toNat, h.2⟩).name
        else .rangeError
    | none => .invalidIndex
  else
    match backups with
    | [] => .noBackups
    | b :: _ => .selected b.name

/-- `if not backup_to_restore:` in `restore_backup`: a `None` result or an
empty selected name is treated as "no valid backup selected". -/
def selectToOption : SelectResult → Option String
  | .selected nm => if nm == "" then none else some nm
  | _ => none

/-! ### Configuration validation (`common.py`, `_validate_config`) -/

/-- `BorgConfig` dataclass (the fields loaded from the add-on options;
the constant directory fields play no role in validation). -/
structure BorgConfig where
  passphrase : Option String := none
  repo_url : Option String := none
  user : Option String := none
  host : Option String := none
  reponame : Option String := none
  compression : String := "zstd"
  debug : Bool := false
  keep_snapshots : Int := 5
  ssh_params : String := ""
  exclude_logs : Bool := true
  custom_excludes : String := ""
deriving DecidableEq, Repr

/-- The recognized compression algorithms (`valid_compressions`). -/
def validCompressions : List String := ["none", "lz4", "zstd", "zlib", "lzma"]

/-- `common.py` lines 141-177 (`_validate_config`): the three fatal
location rules checked in order, then the non-fatal compression fallback,
the `keep_snapshots` clamp, and the URL synthesis from host+reponame. -/
def validateConfig (c : BorgConfig) : Except String BorgConfig :=
  if !truthy c.repo_url && !truthy c.host then
    .error "Either borg_repo_url or borg_host must be defined"
  else if truthy c.repo_url && truthy c.host then
    .error "Cannot define both borg_repo_url and borg_host"
  else if truthy c.host && !truthy c.reponame then
    .error "When using borg_host, borg_reponame must be defined"
  else
    let c1 := if !(c.compression == "") && !(validCompressions.contains c.compression)
      then { c with compression := "zstd" } else c
    let c2 := if c1.keep_snapshots < 1 then { c1 with keep_snapshots := 1 } else c1
    let c3 := if truthy c2.host && !truthy c2.repo_url then
        let userPrefix := if truthy c2.user then c2.user.getD "" ++ "@" else ""
        { c2 with repo_url := some (userPrefix ++ c2.host.getD "" ++ ":" ++ c2.reponame.getD "") }
      else c2
    .ok c3

/-- Does the validation fail fatally? -/
def validationFails (c : BorgConfig) : Bool :=
  match validateConfig c with
  | .error _ => true
  | .ok _ => false

/-! ### Capability probe (`common.py`, `_detect_system_capabilities`) -/

/-- `SystemCapabilities` dataclass. -/
structure SystemCapabilities where
  cpu_cores : Nat
  available_memory_mb : Nat
  is_slow_storage : Bool
  use_parallel : Bool
  compression_threads : Nat
deriving DecidableEq, Repr

/-- `common.py` lines 66-98. `rotational` is the outcome of the
`_is_rotational_disk` platform query: `none` when the classification
failed (any exception), in which case the code assumes slow storage —
`_is_rotational_disk` itself returns `True` on exception and the caller's
`except` block also sets `is_slow_storage = True`. -/
def detectSystemCapabilities (cpu_cores available_memory_mb : Nat)
    (rootDevice : String) (rotational : Option Bool) : SystemCapabilities :=
  let is_slow_storage := containsSub rootDevice "mmcblk" || rotational.getD true
  let use_parallel := decide (1 < cpu_cores) && decide (1024 < available_memory_mb)
    && !is_slow_storage
  let compression_threads := if use_parallel then cpu_cores - 1 else 1
  { cpu_cores := cpu_cores
    available_memory_mb := available_memory_mb
    is_slow_storage := is_slow_storage
    use_parallel := use_parallel
    compression_threads := compression_threads }

/-! ### Repository health (`common.py`: `_check_repo_exists`,
`_initialize_new_repo`, `init_borg_repo`, `repair_repository`) and the
orchestration workflows (`backup.py` `create_backup`,
`restore.py` `restore_backup`).

External-process outcomes (the probe's return code and stderr, subprocess
successes, API results) are inputs; the embedding returns the ordered list
of observable actions plus the run's success flag. `sys.exit(1)` maps to a
`false` flag; Python's `finally` maps to appending the cleanup action on
every path.
-/

/-- The `borg info` probe outcome: return code and stderr text. -/
structure ProbeResp where
  returncode : Int
  stderr : String
deriving DecidableEq, Repr

/-- How `_check_repo_exists` classifies the probe response (the branch
structure of `common.py` lines 275-299). -/
inductive ProbeClass where
  | ready
  | authFailure
  | missing
  | otherError
deriving DecidableEq, Repr

/-- Classification of the probe response by return code and stderr
substrings, in the order the code tests them. -/
def classifyProbe (r : ProbeResp) : ProbeClass :=
  if r.returncode == 0 then .ready
  else if containsSub (lowerStr r.stderr) "passphrase"
      || containsSub (lowerStr r.stderr) "authentication" then .authFailure
  else if containsSub (lowerStr r.stderr) "does not exist" || r.returncode == 2 then
    .missing
  else .otherError

/-- A Python exception as the orchestrator sees it: `ValueError` (raised by
`_check_repo_exists` for auth failures and caught separately in
`create_backup`/`restore_backup`) or any other exception, with its
`str(e)` message. -/
inductive PyExc where
  | valueError (msg : String)
  | other (msg : String)
deriving DecidableEq, Repr

/-- `str(e)` of the exception. -/
def PyExc.msg : PyExc → String
  | .valueError m => m
  | .other m => m

/-- The observable actions of a run, in program order. -/
inductive Action where
  | publish (state : String)
  | classifiedAuth
  | borgInit (encrypted : Bool)
  | warnUnencryptedInit
  | borgRepair
  | haSnapshotCreate
  | tarUnpack (slug : String)
  | borgCreateArchive
  | borgExtract (nm : String)
  | haRestore
  | pruneDeleteAttempt (slug : String)
  | logDeleteFailed (slug : String)
  | publishErrorStatus (msg : String)
  | publishSuccessStatus
  | cleanupTemp
deriving DecidableEq, Repr

/-- `ValueError` message of `_check_repo_exists` when authentication fails
(`common.py` lines 282-291); which message is raised depends on whether a
passphrase is configured. -/
def authFailMsg (passphraseSet : Bool) : String :=
  if passphraseSet then
    "Repository exists but passphrase authentication failed. Please check your borg_passphrase configuration."
  else
    "Repository exists but requires a passphrase. Please set borg_passphrase in your addon configuration."

/-- Result of `_check_repo_exists`: `ok true` = repository accessible,
`ok false` = missing or other error (initialize), `error` = the
authentication `ValueError`. -/
def checkRepoResult (passphraseSet : Bool) (p : ProbeResp) : Except PyExc Bool :=
  match classifyProbe p with
  | .ready => .ok true
  | .authFailure => .error (.valueError (authFailMsg passphraseSet))
  | .missing => .ok false
  | .otherError => .ok false

/-- Actions performed by `_check_repo_exists` (the auth classification is
recorded so theorems can refer to the moment it happens). -/
def checkRepoActs (p : ProbeResp) : List Action :=
  match classifyProbe p with
  | .authFailure => [.classifiedAuth]
  | _ => []

/-- `str(e)` of the `CalledProcessError` raised when `borg init` fails:
the command list (which embeds the repository URL) and the exit status. -/
def initFailMsg (url : String) : String :=
  "Command borg init --encryption " ++ url ++ " returned non-zero exit status 2."

/-- Actions of `_initialize_new_repo` (`common.py` lines 305-334): nothing
happens when the local borg security config path already exists; otherwise
`borg init`, encrypted iff a passphrase is configured, with a security
warning logged first in the unencrypted case. -/
def initNewActs (passphraseSet configPathExists : Bool) : List Action :=
  if configPathExists then []
  else if passphraseSet then [.borgInit true]
  else [.warnUnencryptedInit, .borgInit false]

/-- Result of `_initialize_new_repo`: raises the `CalledProcessError` when
the spawned `borg init` fails. -/
def initNewResult (configPathExists initOk : Bool) (url : String) : Except PyExc Unit :=
  if configPathExists then .ok ()
  else if initOk then .ok ()
  else .error (.other (initFailMsg url))

/-- Actions of `init_borg_repo` (`common.py` lines 256-263): probe first;
initialize only when the probe reports the repository inaccessible without
raising. -/
def initRepoActs (passphraseSet configPathExists : Bool) (p : ProbeResp) : List Action :=
  match checkRepoResult passphraseSet p with
  | .error _ => checkRepoActs p
  | .ok true => checkRepoActs p
  | .ok false => checkRepoActs p ++ initNewActs passphraseSet configPathExists

/-- Result of `init_borg_repo`. -/
def initRepoResult (passphraseSet configPathExists initOk : Bool) (p : ProbeResp)
    (url : String) : Except PyExc Unit :=
  match checkRepoResult passphraseSet p with
  | .error e => .error e
  | .ok true => .ok ()
  | .ok false => initNewResult configPathExists initOk url

/-- `str(e)` of the `CalledProcessError` raised when `borg check --repair`
fails. -/
def repairFailMsg : String :=
  "Command borg check --repair returned non-zero exit status 2."

/-- External-world outcomes that drive the repository-health resolution:
the first probe, whether the local security config path exists, whether
`borg init` would succeed, whether `borg check --repair` would succeed,
and the same data for the re-run of `init_borg_repo` after a repair. -/
structure HealthEnv where
  passphraseSet : Bool
  repoUrl : String
  probe1 : ProbeResp
  cfgPath1 : Bool
  init1Ok : Bool
  repairOk : Bool
  probe2 : ProbeResp
  cfgPath2 : Bool
  init2Ok : Bool
deriving DecidableEq, Repr

/-- The corruption-vs-auth heuristic of `create_backup`/`restore_backup`:
`"authentication" in str(e).lower() or "integrity" in str(e).lower()`. -/
def authOrIntegrity (m : String) : Bool :=
  containsSub (lowerStr m) "authentication" || containsSub (lowerStr m) "integrity"

/-- Actions of the repository-health resolution block shared by
`create_backup` (`backup.py` lines 77-110) and `restore_backup`
(`restore.py` lines 92-119): `init_borg_repo`, with `ValueError` fatal,
other errors routed to one `repair_repository` + `init_borg_repo` retry
when the message matches the corruption heuristic, fatal otherwise. -/
def healthActs (h : HealthEnv) : List Action :=
  let a := initRepoActs h.passphraseSet h.cfgPath1 h.probe1
  match initRepoResult h.passphraseSet h.cfgPath1 h.init1Ok h.probe1 h.repoUrl with
  | .ok _ => a
  | .error (.valueError m) => a ++ [.publishErrorStatus m]
  | .error (.other m) =>
    if authOrIntegrity m then
      let pre := a ++ [.publish "repairing", .borgRepair]
      if h.repairOk then
        let a2 := initRepoActs h.passphraseSet h.cfgPath2 h.probe2
        match initRepoResult h.passphraseSet h.cfgPath2 h.init2Ok h.probe2 h.repoUrl with
        | .ok _ => pre ++ a2
        | .error e2 =>
          pre ++ a2 ++ [.publishErrorStatus ("Repository repair failed: " ++ e2.msg)]
      else pre ++ [.publishErrorStatus ("Repository repair failed: " ++ repairFailMsg)]
    else a ++ [.publishErrorStatus m]

/-- Whether the health resolution lets the run proceed (mirrors the branch
structure of `healthActs`; every failing branch calls `sys.exit(1)`). -/
def healthOk (h : HealthEnv) : Bool :=
  match initRepoResult h.passphraseSet h.cfgPath1 h.init1Ok h.probe1 h.repoUrl with
  | .ok _ => true
  | .error (.valueError _) => false
  | .error (.other m) =>
    if authOrIntegrity m then
      if h.repairOk then
        match initRepoResult h.passphraseSet h.cfgPath2 h.init2Ok h.probe2 h.repoUrl with
        | .ok _ => true
        | .error _ => false
      else false
    else false

/-- `_cleanup_via_api`'s deletion loop (`backup.py` lines 440-453): delete
each entry; a non-200 status is logged (`logger.error`) and the loop
continues. `deleteStatus` gives the HTTP status the API returns for each
slug. -/
def pruneLoop (deleteStatus : String → Int) : List BackupRec → List Action
  | [] => []
  | b :: rest =>
      .pruneDeleteAttempt b.slug ::
        ((if deleteStatus b.slug == 200 then [] else [.logDeleteFailed b.slug])
          ++ pruneLoop deleteStatus rest)

/-- External-world outcomes that drive `create_backup` beyond the health
phase: the snapshot-creation API result, the tar and `borg create`
subprocess outcomes, and the pruning list fetch. -/
structure BackupEnv where
  health : HealthEnv
  haBackup : Except String String
  unpackOk : Bool
  borgCreateOk : Bool
  listFetchOk : Bool
  archives : List BackupRec
  keep : Nat
deriving Repr

/-- Body of `create_backup` (`backup.py` lines 67-160): the action trace
of the `try:` block, before the `finally:` cleanup. -/
def backupBodyActs (env : BackupEnv) (deleteStatus : String → Int) : List Action :=
  let start := .publish "running" :: healthActs env.health
  if healthOk env.health then
    let a0 := start ++ [.publish "available_on", .publish "creating_ha_backup",
      .haSnapshotCreate]
    match env.haBackup with
    | .error m => a0 ++ [.publishErrorStatus m]
    | .ok slug =>
      let a1 := a0 ++ [.publish "unpacking", .tarUnpack slug]
      if env.unpackOk then
        let a2 := a1 ++ [.publish "creating_borg_backup", .borgCreateArchive]
        if env.borgCreateOk then
          let a3 := a2 ++ [.publish "cleaning_up"]
          if env.listFetchOk then
            a3 ++ pruneLoop deleteStatus (pruneToRemove env.keep env.archives)
              ++ [.publishSuccessStatus]
          else a3 ++ [.publishErrorStatus "Failed to cleanup old backups"]
        else a2 ++ [.publishErrorStatus "Borg backup creation failed"]
      else a1 ++ [.publishErrorStatus "Failed to unpack backup"]
  else start

/-- Success flag of the `create_backup` body (false = `sys.exit(1)`). -/
def backupBodyOk (env : BackupEnv) : Bool :=
  if healthOk env.health then
    match env.haBackup with
    | .error _ => false
    | .ok _ => env.unpackOk && env.borgCreateOk && env.listFetchOk
  else false

/-- `create_backup` with its `finally:` block: the cleanup of the working
directory runs after the body on every path. -/
def createBackupRun (env : BackupEnv) (deleteStatus : String → Int) :
    List Action × Bool :=
  (backupBodyActs env deleteStatus ++ [.cleanupTemp], backupBodyOk env)

/-- External-world outcomes that drive `restore_backup` beyond the health
phase. -/
structure RestoreEnv where
  health : HealthEnv
  listOk : Bool
  archives : List FormattedBackup
  backupName : Option String
  backupIndex : Option String
  extractOk : Bool
  restoreOk : Bool
deriving Repr

/-- `list_available_backups` (`restore.py` lines 193-249): the newest-first
sorted, formatted listing; `[]` when the borg list subprocess or its JSON
parse failed (all exceptions are caught and `[]` returned). -/
def listAvailableBackups (listOk : Bool) (archives : List FormattedBackup) :
    List FormattedBackup :=
  if listOk then sortNewestFirst archives else []

/-- Body of `restore_backup` (`restore.py` lines 83-181): the action trace
of the `try:` block, before the `finally:` cleanup. -/
def restoreBodyActs (env : RestoreEnv) : List Action :=
  let start := .publish "restoring" :: healthActs env.health
  if healthOk env.health then
    let a0 := start ++ [.publish "listing_backups"]
    let bs := listAvailableBackups env.listOk env.archives
    if bs.isEmpty then a0 ++ [.publishErrorStatus "No backups found in the repository"]
    else
      match selectToOption (selectBackupToRestore env.backupName env.backupIndex bs) with
      | none => a0 ++ [.publishErrorStatus "No valid backup selected for restoration"]
      | some nm =>
        let a1 := a0 ++ [.publish "extracting", .borgExtract nm]
        if env.extractOk then
          let a2 := a1 ++ [.publish "restoring_to_ha", .haRestore]
          if env.restoreOk then a2 ++ [.publish "restore_completed"]
          else a2 ++ [.publishErrorStatus "Failed to restore backup to Home Assistant"]
        else a1 ++ [.publishErrorStatus "Failed to extract backup from Borg repository"]
  else start

/-- Success flag of the `restore_backup` body. -/
def restoreBodyOk (env : RestoreEnv) : Bool :=
  if healthOk env.health then
    let bs := listAvailableBackups env.listOk env.archives
    if bs.isEmpty then false
    else
      match selectToOption (selectBackupToRestore env.backupName env.backupIndex bs) with
      | none => false
      | some _ => env.extractOk && env.restoreOk
  else false

/-- `restore_backup` with its `finally:` block. -/
def restoreRun (env : RestoreEnv) : List Action × Bool :=
  (restoreBodyActs env ++ [.cleanupTemp], restoreBodyOk env)

/-! ## Theorems -/

theorem sortByDate_perm (l : List BackupRec) : List.Perm (sortByDate l) l :=
  List.perm_insertionSort dateLe l

theorem sortByDate_length (l : List BackupRec) : (sortByDate l).length = l.length :=
  (sortByDate_perm l).length_eq

theorem sortByDate_sorted (l : List BackupRec) : List.Sorted dateLe (sortByDate l) :=
  List.sorted_insertionSort dateLe l

theorem prune_split (keep : Nat) (l : List BackupRec) :
    pruneToRemove keep l ++ pruneKept keep l = sortByDate l := by
  unfold pruneToRemove pruneKept
  split
  · exact List.take_append_drop _ _
  · simp

/-- C1. For every retention count `k ≥ 1` and fetched backup list `l` of
size `n`, the pruning step sorts the listing ascending by creation date and
deletes exactly `max(0, n-k)` entries (`n - k` in truncated subtraction),
namely the `n-k` oldest by creation date; the `min n k` newest entries
(all of them, when `n ≤ k`) are kept, and every deleted entry's creation
date is at most every kept entry's creation date. -/
theorem prune_retention_correct (keep : Nat) (l : List BackupRec) (hk : 1 ≤ keep) :
    (pruneToRemove keep l).length = l.length - keep ∧
    (pruneKept keep l).length = min l.length keep ∧
    pruneToRemove keep l ++ pruneKept keep l = sortByDate l ∧
    List.Perm (sortByDate l) l ∧
    List.Sorted dateLe (sortByDate l) ∧
    (∀ x ∈ pruneToRemove keep l, ∀ y ∈ pruneKept keep l, x.date ≤ y.date) := by
  refine ⟨?_, ?_, prune_split keep l, sortByDate_perm l, sortByDate_sorted l, ?_⟩
  · unfold pruneToRemove
    split
    · simp [sortByDate_length]
    · simp; omega
  · unfold pruneKept
    split
    · simp [sortByDate_length]; omega
    · simp [sortByDate_length]; omega
  · intro x hx y hy
    have hsort : List.Pairwise dateLe (pruneToRemove keep l ++ pruneKept keep l) := by
      rw [prune_split keep l]; exact sortByDate_sorted l
    exact (List.pairwise_append.mp hsort).2.2 x hx y hy

/-- Witness for `prune_retention_correct`: eight backups, keep five, the
three oldest are removed. -/
theorem prune_retention_correct_witness :
    (pruneToRemove 5 [⟨"s1", "n1", "2024-01"⟩, ⟨"s2", "n2", "2024-02"⟩,
      ⟨"s3", "n3", "2024-03"⟩, ⟨"s4", "n4", "2024-04"⟩, ⟨"s5", "n5", "2024-05"⟩,
      ⟨"s6", "n6", "2024-06"⟩, ⟨"s7", "n7", "2024-07"⟩, ⟨"s8", "n8", "2024-08"⟩]).length
      = 3 := by
  have h := prune_retention_correct 5 [⟨"s1", "n1", "2024-01"⟩, ⟨"s2", "n2", "2024-02"⟩,
    ⟨"s3", "n3", "2024-03"⟩, ⟨"s4", "n4", "2024-04"⟩, ⟨"s5", "n5", "2024-05"⟩,
    ⟨"s6", "n6", "2024-06"⟩, ⟨"s7", "n7", "2024-07"⟩, ⟨"s8", "n8", "2024-08"⟩]
    (by decide)
  simpa using h.1

theorem sortNewestFirst_length (l : List FormattedBackup) :
    (sortNewestFirst l).length = l.length :=
  List.length_insertionSort _ l

/-- C2. Restore selection: an explicit archive name absent from the listing
fails with the not-found outcome (and with a present name returns it); with
no name, an explicit index `0` or an index above the listing length fails
with the range-error outcome while an in-range 1-based index selects that
entry; with no override and a non-empty listing the first entry is
returned, which is the newest when the listing is sorted newest-first; the
name resolution has priority (its outcome ignores the index override). -/
theorem select_backup_policy (bn bi : Option String) (bs : List FormattedBackup) :
    (∀ nm, bn = some nm → nm ≠ "" →
      ((∀ b ∈ bs, b.name ≠ nm) → selectBackupToRestore bn bi bs = .notFound) ∧
      ((∃ b ∈ bs, b.name = nm) → selectBackupToRestore bn bi bs = .selected nm) ∧
      (∀ bi2, selectBackupToRestore bn bi bs = selectBackupToRestore bn bi2 bs)) ∧
    (truthy bn = false →
      (∀ s i, bi = some s → s ≠ "" → pythonInt s = some i →
        ((i = 0 ∨ (bs.length : Int) < i) → selectBackupToRestore bn bi bs = .rangeError) ∧
        (1 ≤ i → i ≤ (bs.length : Int) →
          ∃ b, bs.get? (i - 1).toNat = some b ∧
            selectBackupToRestore bn bi bs = .selected b.name)) ∧
      (truthy bi = false → ∀ b rest, bs = b :: rest →
        selectBackupToRestore bn bi bs = .selected b.name ∧
        (List.Pairwise (fun x y => y.raw_time ≤ x.raw_time) bs →
          ∀ c ∈ bs, c.raw_time ≤ b.raw_time))) := by
  constructor
  · rintro nm rfl hnm
    have ht : truthy (some nm) = true := by simp [truthy, hnm]
    refine ⟨?_, ?_, ?_⟩
    · intro habs
      have hany : bs.any (fun b => b.name == nm) = false := by
        rw [List.any_eq_false]
        intro b hb
        simpa using habs b hb
      simp [selectBackupToRestore, ht, hany]
    · rintro ⟨b, hb, hbnm⟩
      have hany : bs.any (fun b => b.name == nm) = true := by
        rw [List.any_eq_true]
        exact ⟨b, hb, by simp [hbnm]⟩
      simp [selectBackupToRestore, ht, hany]
    · intro bi2
      simp [selectBackupToRestore, ht]
  · intro hf
    constructor
    · rintro s i rfl hs hi
      have hti : truthy (some s) = true := by simp [truthy, hs]
      have heq : selectBackupToRestore bn (some s) bs =
          (if h : 0 ≤ i - 1 ∧ (i - 1).toNat < bs.length then
            SelectResult.selected (bs.get ⟨(i - 1).toNat, h.2⟩).name
          else SelectResult.rangeError) := by
        unfold selectBackupToRestore
        rw [if_neg (by simp [hf]), if_pos hti]
        simp only [Option.getD_some]
        rw [hi]
      constructor
      · intro hout
        have hcond : ¬(0 ≤ i - 1 ∧ (i - 1).toNat < bs.length) := by omega
        rw [heq, dif_neg hcond]
      · intro h1 h2
        have hlt : (i - 1).toNat < bs.length := by omega
        have hcond : 0 ≤ i - 1 ∧ (i - 1).toNat < bs.length := ⟨by omega, hlt⟩
        refine ⟨bs.get ⟨(i - 1).toNat, hlt⟩, List.get?_eq_get hlt, ?_⟩
        rw [heq, dif_pos hcond]
    · rintro hfi b rest rfl
      refine ⟨by simp [selectBackupToRestore, hf, hfi], ?_⟩
      intro hsorted c hc
      rcases List.mem_cons.mp hc with rfl | hcr
      · exact le_refl _
      · exact (List.pairwise_cons.mp hsorted).1 c hcr

/-- Witness for `select_backup_policy`: a name absent from a one-entry
listing yields the not-found outcome. -/
theorem select_backup_policy_witness :
    selectBackupToRestore (some "missing-name") none
      [⟨"present", "2024-01-01 00:00:00", "1 B", "2024-01-01T00:00:00.000000"⟩]
      = .notFound := by
  have h := (select_backup_policy (some "missing-name") none
    [⟨"present", "2024-01-01 00:00:00", "1 B", "2024-01-01T00:00:00.000000"⟩]).1
    "missing-name" rfl (by decide)
  exact h.1 (by decide)

/-- C3. The capability probe: `use_parallel` is true iff the core count
exceeds 1 and available memory exceeds 1024 MB and storage is not
classified as slow; `compression_threads` is `cores - 1` when parallel and
1 otherwise; and when the rotational classification failed (`none`) the
storage is treated as rotational, so `use_parallel` is false regardless of
core and memory values. -/
theorem capability_probe_correct (cores mem : Nat) (dev : String) (rot : Option Bool) :
    ((detectSystemCapabilities cores mem dev rot).use_parallel = true ↔
      (1 < cores ∧ 1024 < mem ∧
        (detectSystemCapabilities cores mem dev rot).is_slow_storage = false)) ∧
    (detectSystemCapabilities cores mem dev rot).compression_threads =
      (if (detectSystemCapabilities cores mem dev rot).use_parallel = true
        then cores - 1 else 1) ∧
    (rot = none → (detectSystemCapabilities cores mem dev rot).use_parallel = false) := by
  refine ⟨?_, ?_, ?_⟩
  · simp [detectSystemCapabilities, Bool.and_eq_true, and_assoc]
  · simp [detectSystemCapabilities]
  · rintro rfl
    simp [detectSystemCapabilities]

/-- Witness for `capability_probe_correct`: with 8 cores and 4096 MB free
but an undetermined rotational classification, parallel decompression is
still disabled. -/
theorem capability_probe_correct_witness :
    (detectSystemCapabilities 8 4096 "/dev/sda" none).use_parallel = false :=
  (capability_probe_correct 8 4096 "/dev/sda" none).2.2 rfl

/-- C4. Config validation fails fatally if and only if both an explicit
repository URL and a host are supplied, or neither is supplied, or a host
is supplied without a repository name. -/
theorem validate_config_fatal_iff (c : BorgConfig) :
    validationFails c =
      ((truthy c.repo_url && truthy c.host) ||
       (!truthy c.repo_url && !truthy c.host) ||
       (truthy c.host && !truthy c.reponame)) := by
  cases hu : truthy c.repo_url <;> cases hh : truthy c.host <;>
    cases hr : truthy c.reponame <;>
    simp [validationFails, validateConfig, hu, hh, hr]

/-- C5 counterexample. A configuration whose compression value is the empty
string (not one of the five recognized values) passes validation with its
compression left as `""`: the fallback-to-zstd rule is skipped for falsy
compression values, so after validation the field is not always one of the
five recognized values. -/
theorem compression_fallback_counterexample :
    (validateConfig { repo_url := some "ssh://backup-host/repo", compression := "" }).map
      BorgConfig.compression = .ok "" ∧
    validCompressions.contains "" = false :=
  ⟨rfl, rfl⟩

/-- C5 (amended). For every configuration whose compression value is
non-empty and not one of the five recognized values, validation sets the
effective compression to zstd; an empty compression value is left
unchanged, so after successful validation the compression field is either
empty or one of the five recognized values. -/
theorem compression_fallback_amended (c c2 : BorgConfig)
    (h : validateConfig c = .ok c2) :
    (validCompressions.contains c.compression = true →
      c2.compression = c.compression) ∧
    (c.compression = "" → c2.compression = "") ∧
    (c.compression ≠ "" → validCompressions.contains c.compression = false →
      c2.compression = "zstd") ∧
    (c2.compression = "" ∨ validCompressions.contains c2.compression = true) := by
  unfold validateConfig at h
  split at h; · exact absurd h (by simp)
  split at h; · exact absurd h (by simp)
  split at h; · exact absurd h (by simp)
  simp only [Except.ok.injEq] at h
  subst h
  refine ⟨?_, ?_, ?_, ?_⟩
  · intro hv
    have hmem : c.compression ∈ validCompressions := by simpa using hv
    simp [hmem, apply_ite BorgConfig.compression]
  · intro hc
    simp [hc, apply_ite BorgConfig.compression]
  · intro hc hv
    have hmem : c.compression ∉ validCompressions := by simpa using hv
    simp [hc, hmem, apply_ite BorgConfig.compression]
  · by_cases hc : c.compression = ""
    · left
      simp [hc, apply_ite BorgConfig.compression]
    · right
      by_cases hmem : c.compression ∈ validCompressions
      · simp [hc, hmem, apply_ite BorgConfig.compression]
      · have hcnd : ¬c.compression = "none" ∧ ¬c.compression = "lz4"
            ∧ ¬c.compression = "zstd" ∧ ¬c.compression = "zlib"
            ∧ ¬c.compression = "lzma" := by
          simpa [validCompressions] using hmem
        simp [hc, apply_ite BorgConfig.compression, validCompressions, hcnd]

/-- Witness for `compression_fallback_amended`: a bogus non-empty
compression value becomes zstd. -/
theorem compression_fallback_amended_witness :
    ∃ c2, validateConfig { repo_url := some "bkp:r", compression := "bogus" } = .ok c2
      ∧ c2.compression = "zstd" := by
  refine ⟨_, rfl, ?_⟩
  have h := compression_fallback_amended
    { repo_url := some "bkp:r", compression := "bogus" } _ rfl
  exact h.2.2.1 (by decide) (by decide)

/-- C10 counterexample. With the index override set to the empty string —
a string that does not parse as an integer — selection does not return "no
selection": the empty override is falsy in Python, so the default-newest
resolution applies and an archive is selected. -/
theorem invalid_index_counterexample :
    pythonInt "" = none ∧
    selectBackupToRestore none (some "")
      [⟨"arch-a", "2024-01-01 00:00:00", "1 B", "2024-01-01T00:00:00.000000"⟩]
      = .selected "arch-a" :=
  ⟨rfl, rfl⟩

/-! Helper lemmas about the action traces. -/

theorem initRepoResult_auth (ps c i : Bool) (p : ProbeResp) (url : String)
    (hp : classifyProbe p = .authFailure) :
    initRepoResult ps c i p url = .error (.valueError (authFailMsg ps)) := by
  unfold initRepoResult checkRepoResult
  rw [hp]

theorem initRepoActs_auth (ps c : Bool) (p : ProbeResp)
    (hp : classifyProbe p = .authFailure) :
    initRepoActs ps c p = [Action.classifiedAuth] := by
  unfold initRepoActs checkRepoResult checkRepoActs
  rw [hp]

theorem initRepoResult_valueError (ps c i : Bool) (p : ProbeResp) (url m : String)
    (h : initRepoResult ps c i p url = .error (.valueError m)) :
    classifyProbe p = .authFailure ∧ m = authFailMsg ps := by
  unfold initRepoResult checkRepoResult initNewResult at h
  cases hcp : classifyProbe p <;> rw [hcp] at h <;> (try split_ifs at h) <;> simp_all

theorem classifiedAuth_mem_initRepoActs (ps c : Bool) (p : ProbeResp) :
    Action.classifiedAuth ∈ initRepoActs ps c p ↔ classifyProbe p = .authFailure := by
  unfold initRepoActs checkRepoResult checkRepoActs initNewActs
  cases hcp : classifyProbe p <;> simp <;> (try split_ifs) <;> simp

theorem borgInit_mem_initRepoActs (ps c : Bool) (p : ProbeResp) (b : Bool)
    (h : Action.borgInit b ∈ initRepoActs ps c p) : b = ps := by
  unfold initRepoActs checkRepoResult checkRepoActs initNewActs at h
  cases hcp : classifyProbe p <;> rw [hcp] at h <;> (try split_ifs at h) <;> simp_all

theorem borgRepair_not_mem_initRepoActs (ps c : Bool) (p : ProbeResp) :
    Action.borgRepair ∉ initRepoActs ps c p := by
  unfold initRepoActs checkRepoResult checkRepoActs initNewActs
  cases hcp : classifyProbe p <;> simp <;> (try split_ifs) <;> simp

theorem cleanupTemp_not_mem_initRepoActs (ps c : Bool) (p : ProbeResp) :
    Action.cleanupTemp ∉ initRepoActs ps c p := by
  unfold initRepoActs checkRepoResult checkRepoActs initNewActs
  cases hcp : classifyProbe p <;> simp <;> (try split_ifs) <;> simp

theorem warn_mem_initRepoActs (ps c : Bool) (p : ProbeResp)
    (hp : classifyProbe p = .missing) (hc : c = false) (hps : ps = false) :
    Action.warnUnencryptedInit ∈ initRepoActs ps c p := by
  subst hc hps
  unfold initRepoActs checkRepoResult checkRepoActs initNewActs
  rw [hp]
  simp

theorem borgInit_mem_initRepoActs_missing (ps c : Bool) (p : ProbeResp)
    (hp : classifyProbe p = .missing) (hc : c = false) :
    Action.borgInit ps ∈ initRepoActs ps c p := by
  subst hc
  unfold initRepoActs checkRepoResult checkRepoActs initNewActs
  rw [hp]
  cases ps <;> simp

theorem initRepoResult_missing_fail (ps : Bool) (i : Bool) (p : ProbeResp) (url : String)
    (hp : classifyProbe p = .missing) (hc : i = false) :
    initRepoResult ps false i p url = .error (.other (initFailMsg url)) := by
  subst hc
  unfold initRepoResult checkRepoResult initNewResult
  rw [hp]
  rfl

/-- Every branch of `healthActs` begins with the first `init_borg_repo`
call's actions. -/
theorem initRepoActs_prefix_healthActs (h : HealthEnv) :
    List.IsPrefix (initRepoActs h.passphraseSet h.cfgPath1 h.probe1) (healthActs h) := by
  unfold healthActs
  split
  · exact List.prefix_rfl
  · exact List.prefix_append _ _
  · split
    · split
      · split
        · exact (List.prefix_append _ _).trans (List.prefix_append _ _)
        · exact ((List.prefix_append _ _).trans (List.prefix_append _ _)).trans
            (List.prefix_append _ _)
      · exact (List.prefix_append _ _).trans (List.prefix_append _ _)
    · exact List.prefix_append _ _

theorem cleanupTemp_not_mem_healthActs (h : HealthEnv) :
    Action.cleanupTemp ∉ healthActs h := by
  have h1 := cleanupTemp_not_mem_initRepoActs h.passphraseSet h.cfgPath1 h.probe1
  have h2 := cleanupTemp_not_mem_initRepoActs h.passphraseSet h.cfgPath2 h.probe2
  unfold healthActs
  split
  · exact h1
  · simp_all
  · split
    · split
      · split <;> simp_all
      · simp_all
    · simp_all

/-- Every action of the health-resolution trace comes from one of the two
`init_borg_repo` calls, or is the repairing status publish, the repair
subprocess, or an error-status publish. -/
theorem mem_healthActs_cases (h : HealthEnv) (a : Action) (hm : a ∈ healthActs h) :
    a ∈ initRepoActs h.passphraseSet h.cfgPath1 h.probe1 ∨
    a ∈ initRepoActs h.passphraseSet h.cfgPath2 h.probe2 ∨
    a = Action.publish "repairing" ∨ a = Action.borgRepair ∨
    (∃ m, a = Action.publishErrorStatus m) := by
  unfold healthActs at hm
  split at hm
  · exact Or.inl hm
  · simp only [List.mem_append, List.mem_singleton] at hm
    rcases hm with hm | hm
    · exact Or.inl hm
    · exact Or.inr (Or.inr (Or.inr (Or.inr ⟨_, hm⟩)))
  · split at hm
    · split at hm
      · split at hm
        · simp only [List.mem_append, List.mem_cons, List.not_mem_nil, or_false] at hm
          rcases hm with (hm | hm | hm) | hm
          · exact Or.inl hm
          · exact Or.inr (Or.inr (Or.inl hm))
          · exact Or.inr (Or.inr (Or.inr (Or.inl hm)))
          · exact Or.inr (Or.inl hm)
        · simp only [List.mem_append, List.mem_cons, List.mem_singleton,
            List.not_mem_nil, or_false] at hm
          rcases hm with ((hm | hm | hm) | hm) | hm
          · exact Or.inl hm
          · exact Or.inr (Or.inr (Or.inl hm))
          · exact Or.inr (Or.inr (Or.inr (Or.inl hm)))
          · exact Or.inr (Or.inl hm)
          · exact Or.inr (Or.inr (Or.inr (Or.inr ⟨_, hm⟩)))
      · simp only [List.mem_append, List.mem_cons, List.mem_singleton,
          List.not_mem_nil, or_false] at hm
        rcases hm with (hm | hm | hm) | hm
        · exact Or.inl hm
        · exact Or.inr (Or.inr (Or.inl hm))
        · exact Or.inr (Or.inr (Or.inr (Or.inl hm)))
        · exact Or.inr (Or.inr (Or.inr (Or.inr ⟨_, hm⟩)))
    · simp only [List.mem_append, List.mem_singleton] at hm
      rcases hm with hm | hm
      · exact Or.inl hm
      · exact Or.inr (Or.inr (Or.inr (Or.inr ⟨_, hm⟩)))

theorem borgInit_mem_healthActs (h : HealthEnv) (b : Bool)
    (hm : Action.borgInit b ∈ healthActs h) : b = h.passphraseSet := by
  rcases mem_healthActs_cases h _ hm with h1 | h2 | h3 | h4 | ⟨m, h5⟩
  · exact borgInit_mem_initRepoActs _ _ _ _ h1
  · exact borgInit_mem_initRepoActs _ _ _ _ h2
  · simp at h3
  · simp at h4
  · simp at h5

theorem classifiedAuth_not_mem_pruneLoop (ds : String → Int) (l : List BackupRec) :
    Action.classifiedAuth ∉ pruneLoop ds l := by
  induction l with
  | nil => simp [pruneLoop]
  | cons b rest ih =>
    unfold pruneLoop
    split <;> simp_all

theorem borgInit_not_mem_pruneLoop (ds : String → Int) (l : List BackupRec) (b : Bool) :
    Action.borgInit b ∉ pruneLoop ds l := by
  induction l with
  | nil => simp [pruneLoop]
  | cons x rest ih =>
    unfold pruneLoop
    split <;> simp_all

theorem cleanupTemp_not_mem_pruneLoop (ds : String → Int) (l : List BackupRec) :
    Action.cleanupTemp ∉ pruneLoop ds l := by
  induction l with
  | nil => simp [pruneLoop]
  | cons b rest ih =>
    unfold pruneLoop
    split <;> simp_all

theorem isPrefix_append_right (l m n : List Action) (h : List.IsPrefix l m) :
    List.IsPrefix l (m ++ n) :=
  h.trans (List.prefix_append m n)

theorem mem_pruneLoop_cases (ds : String → Int) (l : List BackupRec) (a : Action)
    (hm : a ∈ pruneLoop ds l) :
    (∃ s, a = Action.pruneDeleteAttempt s) ∨ (∃ s, a = Action.logDeleteFailed s) := by
  induction l with
  | nil => simp [pruneLoop] at hm
  | cons b rest ih =>
    unfold pruneLoop at hm
    rcases List.mem_cons.mp hm with rfl | hm2
    · exact Or.inl ⟨_, rfl⟩
    · rcases List.mem_append.mp hm2 with hm3 | hm3
      · split at hm3
        · simp at hm3
        · simp at hm3
          exact Or.inr ⟨_, hm3⟩
      · exact ih hm3

/-- An action of the `create_backup` body that is not one of the body's own
literal actions and not a pruning action comes from the health phase. -/
theorem mem_backupBodyActs_of (env : BackupEnv) (ds : String → Int) (a : Action)
    (hm : a ∈ backupBodyActs env ds)
    (n1 : ∀ s, a ≠ Action.publish s) (n2 : a ≠ Action.haSnapshotCreate)
    (n3 : ∀ s, a ≠ Action.tarUnpack s) (n4 : a ≠ Action.borgCreateArchive)
    (n5 : ∀ m, a ≠ Action.publishErrorStatus m) (n6 : a ≠ Action.publishSuccessStatus)
    (n7 : a ∉ pruneLoop ds (pruneToRemove env.keep env.archives)) :
    a ∈ healthActs env.health := by
  unfold backupBodyActs at hm
  split at hm
  · split at hm <;> (try split at hm) <;> (try split at hm) <;> (try split at hm) <;>
      simp_all [List.mem_append]
  · simp_all

/-- An action of the `restore_backup` body that is not one of the body's
own literal actions comes from the health phase. -/
theorem mem_restoreBodyActs_of (env : RestoreEnv) (a : Action)
    (hm : a ∈ restoreBodyActs env)
    (n1 : ∀ s, a ≠ Action.publish s) (n2 : ∀ s, a ≠ Action.borgExtract s)
    (n3 : a ≠ Action.haRestore) (n5 : ∀ m, a ≠ Action.publishErrorStatus m) :
    a ∈ healthActs env.health := by
  unfold restoreBodyActs at hm
  by_cases hh : healthOk env.health = true
  case neg => rw [if_neg hh] at hm; simp_all
  rw [if_pos hh] at hm
  by_cases hemp : (listAvailableBackups env.listOk env.archives).isEmpty = true
  · rw [if_pos hemp] at hm
    simp_all [List.mem_append]
  · rw [if_neg hemp] at hm
    cases hsel : selectToOption (selectBackupToRestore env.backupName env.backupIndex
        (listAvailableBackups env.listOk env.archives)) with
    | none =>
      rw [hsel] at hm
      simp_all [List.mem_append]
    | some nm =>
      rw [hsel] at hm
      simp only [] at hm
      by_cases hex : env.extractOk = true
      · rw [if_pos hex] at hm
        by_cases hro : env.restoreOk = true
        · rw [if_pos hro] at hm
          simp_all [List.mem_append]
        · rw [if_neg hro] at hm
          simp_all [List.mem_append]
      · rw [if_neg hex] at hm
        simp_all [List.mem_append]

theorem cleanupTemp_not_mem_backupBodyActs (env : BackupEnv) (ds : String → Int) :
    Action.cleanupTemp ∉ backupBodyActs env ds := by
  intro hm
  have hh := mem_backupBodyActs_of env ds _ hm (by simp) (by simp) (by simp) (by simp)
    (by simp) (by simp) (cleanupTemp_not_mem_pruneLoop ds _)
  exact cleanupTemp_not_mem_healthActs env.health hh

theorem cleanupTemp_not_mem_restoreBodyActs (env : RestoreEnv) :
    Action.cleanupTemp ∉ restoreBodyActs env := by
  intro hm
  have hh := mem_restoreBodyActs_of env _ hm (by simp) (by simp) (by simp) (by simp)
  exact cleanupTemp_not_mem_healthActs env.health hh

/-- The body of `create_backup` always begins with the running-status
publish followed by the health-resolution actions. -/
theorem start_prefix_backupBodyActs (env : BackupEnv) (ds : String → Int) :
    List.IsPrefix (Action.publish "running" :: healthActs env.health)
      (backupBodyActs env ds) := by
  unfold backupBodyActs
  split
  · split <;> (try split) <;> (try split) <;> (try split) <;>
      (repeat (first | exact List.prefix_rfl | apply isPrefix_append_right))
  · exact List.prefix_rfl

/-- A failing health resolution publishes an error status. -/
theorem healthActs_error_of_not_ok (h : HealthEnv) (hf : healthOk h = false) :
    ∃ m, Action.publishErrorStatus m ∈ healthActs h := by
  unfold healthOk at hf
  unfold healthActs
  cases hres : initRepoResult h.passphraseSet h.cfgPath1 h.init1Ok h.probe1 h.repoUrl with
  | ok u => rw [hres] at hf; simp at hf
  | error e =>
    rw [hres] at hf
    cases e with
    | valueError m => exact ⟨m, by simp⟩
    | other m =>
      simp only [] at hf ⊢
      by_cases hai : authOrIntegrity m = true
      · rw [if_pos hai] at hf ⊢
        by_cases hro : h.repairOk = true
        · rw [if_pos hro] at hf ⊢
          cases hres2 : initRepoResult h.passphraseSet h.cfgPath2 h.init2Ok h.probe2
              h.repoUrl with
          | ok u => rw [hres2] at hf; simp at hf
          | error e2 => exact ⟨"Repository repair failed: " ++ e2.msg, by simp⟩
        · rw [if_neg hro]
          exact ⟨"Repository repair failed: " ++ repairFailMsg, by simp⟩
      · rw [if_neg hai]
        exact ⟨m, by simp⟩

/-- When the auth classification fired inside the health resolution, the
resolution fails and its trace ends with the classification followed by an
error-status publish. -/
theorem healthActs_auth_shape (h : HealthEnv)
    (hm : Action.classifiedAuth ∈ healthActs h) :
    healthOk h = false ∧
    ∃ pre m, healthActs h = pre ++ [Action.classifiedAuth, Action.publishErrorStatus m] := by
  cases hres : initRepoResult h.passphraseSet h.cfgPath1 h.init1Ok h.probe1 h.repoUrl with
  | ok u =>
    exfalso
    have hacts : healthActs h = initRepoActs h.passphraseSet h.cfgPath1 h.probe1 := by
      unfold healthActs
      simp only [hres]
    rw [hacts] at hm
    have hauth := (classifiedAuth_mem_initRepoActs _ _ _).mp hm
    rw [initRepoResult_auth _ _ _ _ _ hauth] at hres
    simp at hres
  | error e =>
    cases e with
    | valueError m =>
      obtain ⟨hauth, -⟩ := initRepoResult_valueError _ _ _ _ _ _ hres
      have hacts : healthActs h = [Action.classifiedAuth, Action.publishErrorStatus m] := by
        unfold healthActs
        simp only [hres]
        rw [initRepoActs_auth _ _ _ hauth]
        rfl
      have hok : healthOk h = false := by
        unfold healthOk
        simp only [hres]
      exact ⟨hok, [], m, by rw [hacts]; rfl⟩
    | other m =>
      by_cases hai : authOrIntegrity m = true
      case neg =>
        exfalso
        have hacts : healthActs h = initRepoActs h.passphraseSet h.cfgPath1 h.probe1
            ++ [Action.publishErrorStatus m] := by
          unfold healthActs
          simp only [hres]
          rw [if_neg hai]
        rw [hacts] at hm
        simp only [List.mem_append, List.mem_singleton] at hm
        rcases hm with hm | hm
        · have hauth := (classifiedAuth_mem_initRepoActs _ _ _).mp hm
          rw [initRepoResult_auth _ _ _ _ _ hauth] at hres
          simp at hres
        · simp at hm
      case pos =>
      by_cases hro : h.repairOk = true
      case neg =>
        exfalso
        have hacts : healthActs h = initRepoActs h.passphraseSet h.cfgPath1 h.probe1
            ++ [Action.publish "repairing", Action.borgRepair]
            ++ [Action.publishErrorStatus ("Repository repair failed: " ++ repairFailMsg)] := by
          unfold healthActs
          simp only [hres]
          rw [if_pos hai, if_neg hro]
        rw [hacts] at hm
        simp only [List.mem_append, List.mem_cons, List.mem_singleton,
          List.not_mem_nil, or_false] at hm
        rcases hm with (hm | hm | hm) | hm
        · have hauth := (classifiedAuth_mem_initRepoActs _ _ _).mp hm
          rw [initRepoResult_auth _ _ _ _ _ hauth] at hres
          simp at hres
        · simp at hm
        · simp at hm
        · simp at hm
      case pos =>
      cases hres2 : initRepoResult h.passphraseSet h.cfgPath2 h.init2Ok h.probe2 h.repoUrl with
      | ok u =>
        exfalso
        have hacts : healthActs h = initRepoActs h.passphraseSet h.cfgPath1 h.probe1
            ++ [Action.publish "repairing", Action.borgRepair]
            ++ initRepoActs h.passphraseSet h.cfgPath2 h.probe2 := by
          unfold healthActs
          simp only [hres]
          rw [if_pos hai, if_pos hro]
          simp only [hres2]
        rw [hacts] at hm
        simp only [List.mem_append, List.mem_cons, List.not_mem_nil, or_false] at hm
        rcases hm with (hm | hm | hm) | hm
        · have hauth := (classifiedAuth_mem_initRepoActs _ _ _).mp hm
          rw [initRepoResult_auth _ _ _ _ _ hauth] at hres
          simp at hres
        · simp at hm
        · simp at hm
        · have hauth := (classifiedAuth_mem_initRepoActs _ _ _).mp hm
          rw [initRepoResult_auth _ _ _ _ _ hauth] at hres2
          simp at hres2
      | error e2 =>
        have hacts : healthActs h = initRepoActs h.passphraseSet h.cfgPath1 h.probe1
            ++ [Action.publish "repairing", Action.borgRepair]
            ++ initRepoActs h.passphraseSet h.cfgPath2 h.probe2
            ++ [Action.publishErrorStatus ("Repository repair failed: " ++ e2.msg)] := by
          unfold healthActs
          simp only [hres]
          rw [if_pos hai, if_pos hro]
          simp only [hres2]
        have hok : healthOk h = false := by
          unfold healthOk
          simp only [hres]
          rw [if_pos hai, if_pos hro]
          simp only [hres2]
        cases e2 with
        | valueError m2 =>
          obtain ⟨hauth2, -⟩ := initRepoResult_valueError _ _ _ _ _ _ hres2
          refine ⟨hok, initRepoActs h.passphraseSet h.cfgPath1 h.probe1
            ++ [Action.publish "repairing", Action.borgRepair],
            "Repository repair failed: " ++ PyExc.msg (.valueError m2), ?_⟩
          rw [hacts, initRepoActs_auth _ _ _ hauth2]
          simp
        | other m2 =>
          exfalso
          rw [hacts] at hm
          simp only [List.mem_append, List.mem_cons, List.mem_singleton,
            List.not_mem_nil, or_false] at hm
          rcases hm with ((hm | hm | hm) | hm) | hm
          · have hauth := (classifiedAuth_mem_initRepoActs _ _ _).mp hm
            rw [initRepoResult_auth _ _ _ _ _ hauth] at hres
            simp at hres
          · simp at hm
          · simp at hm
          · have hauth := (classifiedAuth_mem_initRepoActs _ _ _).mp hm
            rw [initRepoResult_auth _ _ _ _ _ hauth] at hres2
            simp at hres2
          · simp at hm

/-! Concrete environments used by witnesses and counterexamples. -/

/-- Probe says auth failure, no passphrase configured. -/
def envAuthW : BackupEnv :=
  ⟨⟨false, "u", ⟨1, "Passphrase required"⟩, true, true, true, ⟨0, ""⟩, true, true⟩,
    .ok "s", true, true, true, [], 5⟩

/-- Probe says missing repository but the local security config path exists. -/
def envC7x : BackupEnv :=
  ⟨⟨true, "u", ⟨2, "repository does not exist"⟩, true, true, true, ⟨0, ""⟩, true, true⟩,
    .error "api failed", true, true, true, [], 5⟩

/-- Probe says missing repository, no local security path, no passphrase. -/
def envC7w : BackupEnv :=
  ⟨⟨false, "u", ⟨2, "repository does not exist"⟩, false, true, true, ⟨0, ""⟩, false, true⟩,
    .ok "s", true, true, true, [], 5⟩

/-- Healthy run with two platform backups and retention one. -/
def envC8 : BackupEnv :=
  ⟨⟨true, "u", ⟨0, ""⟩, true, true, true, ⟨0, ""⟩, true, true⟩, .ok "slug1", true, true,
    true, [⟨"old", "old-backup", "2022-01-01"⟩, ⟨"new", "new-backup", "2024-01-01"⟩], 1⟩

/-- Backup run that fails at the snapshot-creation API call. -/
def envB9 : BackupEnv :=
  ⟨⟨true, "u", ⟨0, ""⟩, true, true, true, ⟨0, ""⟩, true, true⟩, .error "api down", true,
    true, true, [], 5⟩

/-- Restore run with an empty listing. -/
def envR9 : RestoreEnv :=
  ⟨⟨true, "u", ⟨0, ""⟩, true, true, true, ⟨0, ""⟩, true, true⟩, true, [], none, none,
    true, true⟩

/-- Restore run with a non-empty listing and a non-numeric index override. -/
def envR10 : RestoreEnv :=
  ⟨⟨true, "u", ⟨0, ""⟩, true, true, true, ⟨0, ""⟩, true, true⟩, true,
    [⟨"arch", "2024-01-01 00:00:00", "1 B", "2024-01-01T00:00:00.000000"⟩], none,
    some "not-a-number", true, true⟩

/-- C6. Whenever the repository probe classifies the response as an
authentication/passphrase failure — whether or not a passphrase is
configured — the backup run aborts with a fatal status and never repairs
or initializes in response: a first-probe auth classification yields a run
containing no repair and no init at all, and after any auth classification
the run performs only the error-status publish and the final cleanup. -/
theorem auth_failure_aborts (env : BackupEnv) (ds : String → Int) :
    (classifyProbe env.health.probe1 = .authFailure →
      (createBackupRun env ds).2 = false ∧
      (∀ b, Action.borgInit b ∉ (createBackupRun env ds).1) ∧
      Action.borgRepair ∉ (createBackupRun env ds).1) ∧
    (Action.classifiedAuth ∈ (createBackupRun env ds).1 →
      (createBackupRun env ds).2 = false ∧
      ∃ pre m, (createBackupRun env ds).1 =
        pre ++ [Action.classifiedAuth, Action.publishErrorStatus m,
          Action.cleanupTemp]) := by
  constructor
  · intro hp
    have hres := initRepoResult_auth env.health.passphraseSet env.health.cfgPath1
      env.health.init1Ok env.health.probe1 env.health.repoUrl hp
    have hacts : healthActs env.health = [Action.classifiedAuth,
        Action.publishErrorStatus (authFailMsg env.health.passphraseSet)] := by
      unfold healthActs
      simp only [hres]
      rw [initRepoActs_auth _ _ _ hp]
      rfl
    have hok : healthOk env.health = false := by
      unfold healthOk
      simp only [hres]
    have hbody : backupBodyActs env ds =
        Action.publish "running" :: healthActs env.health := by
      unfold backupBodyActs
      rw [if_neg (by simp [hok])]
    have htr : (createBackupRun env ds).1 = [Action.publish "running",
        Action.classifiedAuth,
        Action.publishErrorStatus (authFailMsg env.health.passphraseSet),
        Action.cleanupTemp] := by
      show backupBodyActs env ds ++ [Action.cleanupTemp] = _
      rw [hbody, hacts]
      rfl
    refine ⟨?_, ?_, ?_⟩
    · show backupBodyOk env = false
      unfold backupBodyOk
      rw [if_neg (by simp [hok])]
    · intro b
      rw [htr]
      simp
    · rw [htr]
      simp
  · intro hmem
    have hmb : Action.classifiedAuth ∈ backupBodyActs env ds := by
      rcases List.mem_append.mp hmem with hmb | hmb
      · exact hmb
      · simp at hmb
    have hmh : Action.classifiedAuth ∈ healthActs env.health :=
      mem_backupBodyActs_of env ds _ hmb (by simp) (by simp) (by simp) (by simp)
        (by simp) (by simp) (classifiedAuth_not_mem_pruneLoop ds _)
    obtain ⟨hok, pre, m, hshape⟩ := healthActs_auth_shape env.health hmh
    have hbody : backupBodyActs env ds =
        Action.publish "running" :: healthActs env.health := by
      unfold backupBodyActs
      rw [if_neg (by simp [hok])]
    refine ⟨?_, Action.publish "running" :: pre, m, ?_⟩
    · show backupBodyOk env = false
      unfold backupBodyOk
      rw [if_neg (by simp [hok])]
    · show backupBodyActs env ds ++ [Action.cleanupTemp] = _
      rw [hbody, hshape]
      simp

/-- Witness for `auth_failure_aborts`: a probe whose stderr mentions the
passphrase, with no passphrase configured, aborts the run with no repair. -/
theorem auth_failure_aborts_witness :
    classifyProbe envAuthW.health.probe1 = ProbeClass.authFailure ∧
    (createBackupRun envAuthW (fun _ => 200)).2 = false ∧
    Action.borgRepair ∉ (createBackupRun envAuthW (fun _ => 200)).1 := by
  have h := (auth_failure_aborts envAuthW (fun _ => 200)).1 (by decide)
  exact ⟨by decide, h.1, h.2.2⟩

/-- C7 counterexample. The probe classifies the repository as missing, yet
no initialization is attempted, because the local borg security config
path already exists (`_initialize_new_repo` is guarded on
`config_path.exists()`). -/
theorem missing_repo_init_counterexample :
    classifyProbe envC7x.health.probe1 = ProbeClass.missing ∧
    Action.borgInit true ∉ (createBackupRun envC7x (fun _ => 200)).1 ∧
    Action.borgInit false ∉ (createBackupRun envC7x (fun _ => 200)).1 := by
  refine ⟨by decide, by decide, by decide⟩

/-- C7 (amended). Whenever the probe reports the repository missing and
the local borg security config path does not exist, the run attempts to
initialize a new repository, encrypted iff a passphrase is configured (and
every initialization in the run uses that mode); unencrypted
initialization is preceded by a security warning; and an initialization
failure whose error text does not contain the corruption/auth markers
aborts the run after publishing an error status. -/
theorem missing_repo_init_amended (env : BackupEnv) (ds : String → Int)
    (h1 : classifyProbe env.health.probe1 = .missing)
    (h2 : env.health.cfgPath1 = false) :
    Action.borgInit env.health.passphraseSet ∈ (createBackupRun env ds).1 ∧
    (∀ b, Action.borgInit b ∈ (createBackupRun env ds).1 →
      b = env.health.passphraseSet) ∧
    (env.health.passphraseSet = false →
      Action.warnUnencryptedInit ∈ (createBackupRun env ds).1) ∧
    (env.health.init1Ok = false →
      authOrIntegrity (initFailMsg env.health.repoUrl) = false →
      (createBackupRun env ds).2 = false ∧
      Action.publishErrorStatus (initFailMsg env.health.repoUrl)
        ∈ (createBackupRun env ds).1) := by
  have hmem1 : Action.borgInit env.health.passphraseSet ∈ healthActs env.health :=
    (initRepoActs_prefix_healthActs env.health).subset
      (borgInit_mem_initRepoActs_missing _ _ _ h1 h2)
  have hstart := start_prefix_backupBodyActs env ds
  refine ⟨?_, ?_, ?_, ?_⟩
  · exact List.mem_append_left _ (hstart.subset (List.mem_cons_of_mem _ hmem1))
  · intro b hb
    rcases List.mem_append.mp hb with hb | hb
    · have hh := mem_backupBodyActs_of env ds _ hb (by simp) (by simp) (by simp)
        (by simp) (by simp) (by simp) (borgInit_not_mem_pruneLoop ds _ b)
      exact borgInit_mem_healthActs env.health b hh
    · simp at hb
  · intro hps
    have hw : Action.warnUnencryptedInit ∈ healthActs env.health :=
      (initRepoActs_prefix_healthActs env.health).subset
        (warn_mem_initRepoActs _ _ _ h1 h2 hps)
    exact List.mem_append_left _ (hstart.subset (List.mem_cons_of_mem _ hw))
  · intro hioff hmark
    have hres : initRepoResult env.health.passphraseSet env.health.cfgPath1
        env.health.init1Ok env.health.probe1 env.health.repoUrl
        = .error (.other (initFailMsg env.health.repoUrl)) := by
      rw [h2, hioff]
      exact initRepoResult_missing_fail _ _ _ _ h1 rfl
    have hok : healthOk env.health = false := by
      unfold healthOk
      simp only [hres]
      rw [if_neg (by simp [hmark])]
    constructor
    · show backupBodyOk env = false
      unfold backupBodyOk
      rw [if_neg (by simp [hok])]
    · have hacts : healthActs env.health = initRepoActs env.health.passphraseSet
          env.health.cfgPath1 env.health.probe1
          ++ [Action.publishErrorStatus (initFailMsg env.health.repoUrl)] := by
        unfold healthActs
        simp only [hres]
        rw [if_neg (by simp [hmark])]
      have herr : Action.publishErrorStatus (initFailMsg env.health.repoUrl)
          ∈ healthActs env.health := by
        rw [hacts]
        simp
      exact List.mem_append_left _ (hstart.subset (List.mem_cons_of_mem _ herr))

/-- Witness for `missing_repo_init_amended`: missing repository, no local
security path, no passphrase: an unencrypted init is attempted with the
security warning. -/
theorem missing_repo_init_amended_witness :
    Action.borgInit false ∈ (createBackupRun envC7w (fun _ => 200)).1 ∧
    Action.warnUnencryptedInit ∈ (createBackupRun envC7w (fun _ => 200)).1 := by
  have h := missing_repo_init_amended envC7w (fun _ => 200) (by decide) rfl
  exact ⟨h.1, h.2.2.1 rfl⟩

theorem attempt_mem_pruneLoop (ds : String → Int) (l : List BackupRec) (c : BackupRec)
    (hc : c ∈ l) : Action.pruneDeleteAttempt c.slug ∈ pruneLoop ds l := by
  induction l with
  | nil => cases hc
  | cons x rest ih =>
    rcases List.mem_cons.mp hc with rfl | hc2
    · unfold pruneLoop
      exact List.mem_cons_self _ _
    · unfold pruneLoop
      exact List.mem_cons_of_mem _ (List.mem_append_right _ (ih hc2))

theorem logFail_mem_pruneLoop (ds : String → Int) (l : List BackupRec) (b : BackupRec)
    (hb : b ∈ l) (hf : ds b.slug ≠ 200) :
    Action.logDeleteFailed b.slug ∈ pruneLoop ds l := by
  induction l with
  | nil => cases hb
  | cons x rest ih =>
    rcases List.mem_cons.mp hb with rfl | hb2
    · unfold pruneLoop
      rw [if_neg (by simp [hf])]
      exact List.mem_cons_of_mem _ (List.mem_append_left _ (List.mem_singleton_self _))
    · unfold pruneLoop
      exact List.mem_cons_of_mem _ (List.mem_append_right _ (ih hb2))

/-- C8. A deletion failure of an individual entry during pruning is logged
and does not abort anything: the failed entry's deletion is logged, every
entry of the removal list is still attempted, and the run's success flag
does not depend on the deletion statuses at all. -/
theorem prune_partial_failure_ok (ds : String → Int) (l : List BackupRec) (b : BackupRec)
    (hb : b ∈ l) (hf : ds b.slug ≠ 200) (env : BackupEnv) (ds2 : String → Int) :
    Action.logDeleteFailed b.slug ∈ pruneLoop ds l ∧
    (∀ c ∈ l, Action.pruneDeleteAttempt c.slug ∈ pruneLoop ds l) ∧
    (createBackupRun env ds).2 = (createBackupRun env ds2).2 :=
  ⟨logFail_mem_pruneLoop ds l b hb hf,
   fun c hc => attempt_mem_pruneLoop ds l c hc, rfl⟩

/-- Witness for `prune_partial_failure_ok`: two backups, keep one, the
deletion of the one pruned entry fails with HTTP 404, yet the run
completes successfully. -/
theorem prune_partial_failure_ok_witness :
    Action.logDeleteFailed "old" ∈
      pruneLoop (fun _ => 404) [⟨"old", "old-backup", "2022-01-01"⟩] ∧
    (createBackupRun envC8 (fun _ => 404)).2 = true := by
  have h := prune_partial_failure_ok (fun _ => 404) [⟨"old", "old-backup", "2022-01-01"⟩]
    ⟨"old", "old-backup", "2022-01-01"⟩ (by decide) (by decide) envC8 (fun _ => 200)
  refine ⟨h.1, ?_⟩
  rw [h.2.2]
  decide

/-- A failing `create_backup` body publishes an error status. -/
theorem backupBody_error_status (env : BackupEnv) (ds : String → Int)
    (hf : backupBodyOk env = false) :
    ∃ m, Action.publishErrorStatus m ∈ backupBodyActs env ds := by
  unfold backupBodyOk at hf
  unfold backupBodyActs
  by_cases hh : healthOk env.health = true
  case neg =>
    rw [if_neg hh]
    obtain ⟨m, hmem⟩ := healthActs_error_of_not_ok env.health (by simpa using hh)
    exact ⟨m, List.mem_cons_of_mem _ hmem⟩
  rw [if_pos hh] at hf ⊢
  cases hha : env.haBackup with
  | error m =>
    exact ⟨m, by simp⟩
  | ok slug =>
    simp only []
    by_cases hu : env.unpackOk = true
    case neg =>
      rw [if_neg hu]
      exact ⟨"Failed to unpack backup", by simp⟩
    rw [if_pos hu]
    by_cases hbc : env.borgCreateOk = true
    case neg =>
      rw [if_neg hbc]
      exact ⟨"Borg backup creation failed", by simp⟩
    rw [if_pos hbc]
    by_cases hl : env.listFetchOk = true
    case neg =>
      rw [if_neg hl]
      exact ⟨"Failed to cleanup old backups", by simp⟩
    exfalso
    rw [hha] at hf
    simp [hu, hbc, hl] at hf

/-- A failing `restore_backup` body publishes an error status. -/
theorem restoreBody_error_status (env : RestoreEnv)
    (hf : restoreBodyOk env = false) :
    ∃ m, Action.publishErrorStatus m ∈ restoreBodyActs env := by
  unfold restoreBodyOk at hf
  unfold restoreBodyActs
  by_cases hh : healthOk env.health = true
  case neg =>
    rw [if_neg hh]
    obtain ⟨m, hmem⟩ := healthActs_error_of_not_ok env.health (by simpa using hh)
    exact ⟨m, List.mem_cons_of_mem _ hmem⟩
  rw [if_pos hh] at hf ⊢
  by_cases hemp : (listAvailableBackups env.listOk env.archives).isEmpty = true
  · rw [if_pos hemp]
    exact ⟨"No backups found in the repository", by simp⟩
  · rw [if_neg hemp] at hf ⊢
    cases hsel : selectToOption (selectBackupToRestore env.backupName env.backupIndex
        (listAvailableBackups env.listOk env.archives)) with
    | none =>
      exact ⟨"No valid backup selected for restoration", by simp⟩
    | some nm =>
      rw [hsel] at hf
      simp only [] at hf
      simp only []
      by_cases hex : env.extractOk = true
      case neg =>
        rw [if_neg hex]
        exact ⟨"Failed to extract backup from Borg repository", by simp⟩
      rw [if_pos hex]
      by_cases hro : env.restoreOk = true
      case neg =>
        rw [if_neg hro]
        exact ⟨"Failed to restore backup to Home Assistant", by simp⟩
      exfalso
      simp [hex, hro] at hf

/-- C9. On every exit path of a backup or restore run the working-directory
cleanup is the last action and occurs exactly once, and whenever the run
fails, an error status was published before the cleanup. -/
theorem cleanup_always_runs (envB : BackupEnv) (ds : String → Int) (envR : RestoreEnv) :
    (createBackupRun envB ds).1.getLast? = some Action.cleanupTemp ∧
    List.count Action.cleanupTemp (createBackupRun envB ds).1 = 1 ∧
    (restoreRun envR).1.getLast? = some Action.cleanupTemp ∧
    List.count Action.cleanupTemp (restoreRun envR).1 = 1 ∧
    ((createBackupRun envB ds).2 = false →
      ∃ m, Action.publishErrorStatus m ∈ (createBackupRun envB ds).1) ∧
    ((restoreRun envR).2 = false →
      ∃ m, Action.publishErrorStatus m ∈ (restoreRun envR).1) := by
  refine ⟨?_, ?_, ?_, ?_, ?_, ?_⟩
  · exact List.getLast?_concat _
  · show List.count Action.cleanupTemp
      (backupBodyActs envB ds ++ [Action.cleanupTemp]) = 1
    rw [List.count_append,
      List.count_eq_zero.mpr (cleanupTemp_not_mem_backupBodyActs envB ds)]
    simp
  · exact List.getLast?_concat _
  · show List.count Action.cleanupTemp (restoreBodyActs envR ++ [Action.cleanupTemp]) = 1
    rw [List.count_append,
      List.count_eq_zero.mpr (cleanupTemp_not_mem_restoreBodyActs envR)]
    simp
  · intro hfail
    obtain ⟨m, hmem⟩ := backupBody_error_status envB ds hfail
    exact ⟨m, List.mem_append_left _ hmem⟩
  · intro hfail
    obtain ⟨m, hmem⟩ := restoreBody_error_status envR hfail
    exact ⟨m, List.mem_append_left _ hmem⟩

/-- Witness for `cleanup_always_runs`: a failing backup run and a
successful restore run both end with the cleanup action. -/
theorem cleanup_always_runs_witness :
    (createBackupRun envB9 (fun _ => 200)).1.getLast? = some Action.cleanupTemp ∧
    (restoreRun envR9).1.getLast? = some Action.cleanupTemp := by
  have h := cleanup_always_runs envB9 (fun _ => 200) envR9
  exact ⟨h.1, h.2.2.1⟩

/-- C10 (amended). If the restore index override is set to a non-empty
string that does not parse as an integer, selection returns the
invalid-index outcome — no selection — for every listing, and the restore
run fails cleanly: it publishes the no-valid-backup error status instead of
propagating an unhandled exception. (An empty-string override is falsy and
routes to the default-newest resolution instead.) -/
theorem invalid_index_amended (bn : Option String) (s : String)
    (bs : List FormattedBackup) (env : RestoreEnv)
    (h1 : truthy bn = false) (h2 : s ≠ "") (h3 : pythonInt s = none)
    (h4 : healthOk env.health = true) (h5 : env.listOk = true)
    (h6 : env.archives ≠ []) (h7 : env.backupName = bn)
    (h8 : env.backupIndex = some s) :
    selectBackupToRestore bn (some s) bs = .invalidIndex ∧
    (restoreRun env).2 = false ∧
    Action.publishErrorStatus "No valid backup selected for restoration"
      ∈ (restoreRun env).1 := by
  have hsel : ∀ bs2 : List FormattedBackup,
      selectBackupToRestore bn (some s) bs2 = .invalidIndex := by
    intro bs2
    unfold selectBackupToRestore
    rw [if_neg (by simp [h1]), if_pos (by simp [truthy, h2])]
    simp only [Option.getD_some]
    rw [h3]
  have hlen : (listAvailableBackups env.listOk env.archives).length
      = env.archives.length := by
    unfold listAvailableBackups
    rw [if_pos h5]
    exact sortNewestFirst_length _
  have hemp : ¬((listAvailableBackups env.listOk env.archives).isEmpty = true) := by
    intro he
    rw [List.isEmpty_iff] at he
    rw [he] at hlen
    simp at hlen
    exact h6 (List.length_eq_zero.mp hlen.symm)
  refine ⟨hsel bs, ?_, ?_⟩
  · show restoreBodyOk env = false
    unfold restoreBodyOk
    rw [if_pos h4, if_neg hemp, h7, h8, hsel _]
    rfl
  · refine List.mem_append_left _ ?_
    unfold restoreBodyActs
    rw [if_pos h4, if_neg hemp, h7, h8, hsel _]
    simp [selectToOption]

/-- Witness for `invalid_index_amended`: the override "not-a-number" gives
the invalid-index outcome and a cleanly failing restore run. -/
theorem invalid_index_amended_witness :
    selectBackupToRestore none (some "not-a-number") [] = SelectResult.invalidIndex ∧
    (restoreRun envR10).2 = false := by
  have h := invalid_index_amended none "not-a-number" [] envR10 rfl (by decide)
    (by decide) (by decide) rfl (by decide) rfl rfl
  exact ⟨h.1, h.2.1⟩

end BorgSpec
